import Mathlib

/-!
Verification of the Account & Fleet Orchestration Engine of the
robotter-backend-api repository.

The Python services (`services/accounts_service.py`, `services/docker_service.py`,
`services/bots_orchestrator.py`) are shallowly embedded: dictionaries become
association lists (preserving Python's insertion-order iteration semantics),
`Decimal`/`float` arithmetic becomes `Rat`, fallible operations return
`Option`/`Except`, and stateful methods become explicit state-passing
functions.  External library collaborators (PyNaCl's `SecretBox`, the Docker
client) are modelled through their documented interfaces.
-/

set_option autoImplicit false

namespace Robotter

/-! ## Association-list helpers (Python `dict` semantics)

Python dicts iterate in insertion order; assignment updates an existing key in
place or appends a fresh key at the end.  `alookup`/`ainsert` mirror this. -/

def alookup {α : Type} (l : List (String × α)) (k : String) : Option α :=
  match l with
  | [] => none
  | (k', v) :: rest => if k' = k then some v else alookup rest k

def ainsert {α : Type} (l : List (String × α)) (k : String) (v : α) :
    List (String × α) :=
  match l with
  | [] => [(k, v)]
  | (k', v') :: rest => if k' = k then (k, v) :: rest else (k', v') :: ainsert rest k v

def akeys {α : Type} (l : List (String × α)) : List String := l.map (·.1)

def amem {α : Type} (l : List (String × α)) (k : String) : Prop :=
  (alookup l k).isSome

instance {α : Type} (l : List (String × α)) (k : String) : Decidable (amem l k) := by
  unfold amem; infer_instance

def aerase {α : Type} (l : List (String × α)) (k : String) : List (String × α) :=
  match l with
  | [] => []
  | (k', v') :: rest => if k' = k then rest else (k', v') :: aerase rest k

/-! ## String helpers -/

/-- `starts_with s p`: the char list `s` begins with the char list `p`. -/
def starts_with : List Char → List Char → Bool
  | _, [] => true
  | [], _ :: _ => false
  | a :: as, b :: bs => a = b && starts_with as bs

/-- Substring containment on char lists, modelling Python's `in` on `str`. -/
def has_sub (pat : List Char) : List Char → Bool
  | [] => starts_with [] pat
  | a :: rest => starts_with (a :: rest) pat || has_sub pat rest

/-- Python `pat in s` for strings. -/
def str_contains (s pat : String) : Bool := has_sub pat.toList s.toList

/-- Python's `str.strip(chars)`: remove leading and trailing characters that
are members of `chars` (a character set, not a suffix!). -/
def py_strip (s : String) (chars : String) : String :=
  let cs := chars.toList
  String.mk (((s.toList.dropWhile (cs.contains ·)).reverse.dropWhile
    (cs.contains ·)).reverse)

/-! ## Base64 (model of Python's `base64.b64encode`/`b64decode`) -/

def b64chars : List Char :=
  "ABCDEFGHIJKLMNOPQRSTUVWXYZabcdefghijklmnopqrstuvwxyz0123456789+/".toList

def tbl64 (n : Nat) : Char := b64chars.getD n '?'

def dtbl64 (c : Char) : Option Nat := b64chars.indexOf? c

/-- RFC 4648 encoding of a byte list, three bytes to four characters, with
`'='` padding. -/
def b64encode : List Nat → List Char
  | [] => []
  | [a] => [tbl64 (a / 4), tbl64 (a % 4 * 16), '=', '=']
  | [a, b] => [tbl64 (a / 4), tbl64 (a % 4 * 16 + b / 16), tbl64 (b % 16 * 4), '=']
  | a :: b :: c :: rest =>
    tbl64 (a / 4) :: tbl64 (a % 4 * 16 + b / 16) :: tbl64 (b % 16 * 4 + c / 64)
      :: tbl64 (c % 64) :: b64encode rest

def b64decode : List Char → Option (List Nat)
  | [] => some []
  | c0 :: c1 :: c2 :: c3 :: rest =>
    if c2 = '=' ∧ c3 = '=' ∧ rest = [] then
      match dtbl64 c0, dtbl64 c1 with
      | some s0, some s1 => some [s0 * 4 + s1 / 16]
      | _, _ => none
    else if c3 = '=' ∧ rest = [] then
      match dtbl64 c0, dtbl64 c1, dtbl64 c2 with
      | some s0, some s1, some s2 =>
        some [s0 * 4 + s1 / 16, s1 % 16 * 16 + s2 / 4]
      | _, _, _ => none
    else
      match dtbl64 c0, dtbl64 c1, dtbl64 c2, dtbl64 c3, b64decode rest with
      | some s0, some s1, some s2, some s3, some ds =>
        some ((s0 * 4 + s1 / 16) :: (s1 % 16 * 16 + s2 / 4) :: (s2 % 4 * 64 + s3) :: ds)
      | _, _, _, _, _ => none
  | _ => none

/-! ## Text/bytes conversion

`str.encode()` / `bytes.decode()` are modelled at the level of character
codes.  The keys being encrypted are hexadecimal ASCII strings, for which the
code-point sequence and the UTF-8 byte sequence coincide; the model maps each
character to its code point. -/

def str_bytes (s : String) : List Nat := s.toList.map Char.toNat

def bytes_str (bs : List Nat) : String := String.mk (bs.map Char.ofNat)

def hex_digit (n : Nat) : Char := "0123456789abcdef".toList.getD n '?'

/-- Python `bytes.hex()`. -/
def hex_str (bs : List Nat) : String :=
  String.mk (bs.foldr (fun b acc => hex_digit (b / 16) :: hex_digit (b % 16) :: acc) [])

/-! ## PyNaCl `SecretBox` (external library collaborator)

`nacl.secret.SecretBox` is an external dependency.  It is modelled through
its documented interface: authenticated symmetric encryption where
`decrypt (encrypt msg) = msg` for every message under the same key, and the
produced ciphertext (nonce-prefixed, as PyNaCl returns it) is a byte string.
A model instance packages the two operations with those two contracts. -/

structure SecretBoxModel where
  box_encrypt : List Nat → List Nat → List Nat
  box_decrypt : List Nat → List Nat → Option (List Nat)
  box_roundtrip : ∀ key msg, box_decrypt key (box_encrypt key msg) = some msg
  box_bytes : ∀ key msg, ∀ b ∈ box_encrypt key msg, b < 256

/-- `AccountsService._encrypt_private_key`: encrypt the UTF-8 bytes of the
private key with the process-wide `SecretBox` key, then base64-encode. -/
def encrypt_private_key (B : SecretBoxModel) (secret_key : List Nat)
    (private_key : String) : List Char :=
  b64encode (B.box_encrypt secret_key (str_bytes private_key))

/-- `AccountsService._decrypt_private_key`: base64-decode, decrypt with the
same key, decode the plaintext bytes back to a string. -/
def decrypt_private_key (B : SecretBoxModel) (secret_key : List Nat)
    (encrypted : List Char) : Option String :=
  match b64decode encrypted with
  | some ct => (B.box_decrypt secret_key ct).map bytes_str
  | none => none

/-! ## Base58 and the wallet address (model of `base58.b58encode`) -/

def b58chars : List Char :=
  "123456789ABCDEFGHJKLMNPQRSTUVWXYZabcdefghijkmnopqrstuvwxyz".toList

def tbl58 (n : Nat) : Char := b58chars.getD n '?'

/-- Base-58 digits of `n`, most significant first (`fuel`-driven recursion;
`fuel = n` always suffices since `n / 58 < n` for `n > 0`). -/
def natToB58 : Nat → Nat → List Char
  | 0, _ => []
  | _ + 1, 0 => []
  | fuel + 1, n + 1 => natToB58 fuel ((n + 1) / 58) ++ [tbl58 ((n + 1) % 58)]

/-- `base58.b58encode` on a byte list: one `'1'` per leading zero byte, then
the base-58 digits of the big-endian integer value. -/
def b58encode (bs : List Nat) : String :=
  let zeros := (bs.takeWhile (· = 0)).length
  let n := bs.foldl (fun acc b => acc * 256 + b) 0
  String.mk (List.replicate zeros '1' ++ natToB58 n n)

/-- A generated `nacl.signing.SigningKey`, reduced to what the service reads
from it: the bytes of its seed (`signing_key.encode()`) and the bytes of its
public verify key (`signing_key.verify_key.encode()`). -/
structure SigningKeyModel where
  seed : List Nat
  verify_key : List Nat

/-- The wallet address computed by `AccountsService.generate_bot_wallet`:
`base58.b58encode(signing_key.verify_key.encode()).decode()`. -/
def wallet_address (sk : SigningKeyModel) : String := b58encode sk.verify_key

/-! ### A concrete `SecretBoxModel` instance (used by witnesses)

A simple injective bytes-valued cipher: each `Nat` of the message is sent to
a unary run of `1`s closed by a `0`, after a 24-byte zero "nonce" mirroring
the nonce prefix of PyNaCl ciphertexts.  It satisfies both contracts. -/

def unary_enc : List Nat → List Nat
  | [] => []
  | n :: rest => List.replicate n 1 ++ 0 :: unary_enc rest

def unary_dec_go : Nat → List Nat → List Nat
  | _, [] => []
  | k, 0 :: rest => k :: unary_dec_go 0 rest
  | k, (_ + 1) :: rest => unary_dec_go (k + 1) rest

def toy_box : SecretBoxModel where
  box_encrypt := fun _ msg => List.replicate 24 0 ++ unary_enc msg
  box_decrypt := fun _ ct => some (unary_dec_go 0 (ct.drop 24))
  box_roundtrip := by
    intro key msg
    have hrun : ∀ n k rest, unary_dec_go k (List.replicate n 1 ++ 0 :: rest) =
        (k + n) :: unary_dec_go 0 rest := by
      intro n
      induction n with
      | zero => intro k rest; simp [unary_dec_go]
      | succ m ih =>
        intro k rest
        have hk : k + 1 + m = k + (m + 1) := by omega
        simp only [List.replicate_succ, List.cons_append, unary_dec_go,
          List.append_eq, ih, hk]
    have hdec : ∀ m2, unary_dec_go 0 (unary_enc m2) = m2 := by
      intro m2
      induction m2 with
      | nil => rfl
      | cons n rest ih => simp only [unary_enc, hrun, ih, Nat.zero_add]
    simp [hdec]
  box_bytes := by
    intro key msg b hb
    simp only [List.mem_append] at hb
    rcases hb with h | h
    · have := List.eq_of_mem_replicate h; omega
    · induction msg with
      | nil => simp [unary_enc] at h
      | cons n rest ih =>
        simp only [unary_enc, List.mem_append, List.mem_cons] at h
        rcases h with h | h | h
        · have := List.eq_of_mem_replicate h; omega
        · omega
        · exact ih h

/-! ## Filesystem model

The on-disk state the service manipulates: a set of directories and a map
from file paths to contents.  File contents are modelled as key-value
documents (rich enough for the YAML/JSON files the claims inspect; files
whose structure is never inspected are carried opaquely). -/

structure FS where
  folders : List String
  files : List (String × List (String × String))

def FS.dir_exists (fs : FS) (p : String) : Prop := p ∈ fs.folders

instance (fs : FS) (p : String) : Decidable (fs.dir_exists p) := by
  unfold FS.dir_exists; infer_instance

/-- `Modelled from the spec:` `FileSystemUtil.create_folder` (the
`utils/file_system.py` module is not part of the provided sources): creates
`parent/name`. -/
def FS.create_folder (fs : FS) (parent name : String) : FS :=
  { fs with folders := fs.folders ++ [parent ++ "/" ++ name] }

/-- `Modelled from the spec:` `FileSystemUtil.copy_file` (module not in the
provided sources): copies the content of `src` to `dst`; fails when the
source file does not exist. -/
def FS.copy_file (fs : FS) (src dst : String) : Option FS :=
  match alookup fs.files src with
  | some content => some { fs with files := ainsert fs.files dst content }
  | none => none

/-- `Modelled from the spec:` `FileSystemUtil.delete_folder` (module not in
the provided sources): removes the directory tree `parent/name`. -/
def FS.delete_folder (fs : FS) (parent name : String) : FS :=
  let p := parent ++ "/" ++ name
  { folders := fs.folders.filter
      (fun q => !(q = p || starts_with q.toList (p ++ "/").toList)),
    files := fs.files.filter
      (fun kv => !starts_with kv.1.toList (p ++ "/").toList) }

/-- `Modelled from the spec:` `FileSystemUtil.delete_file` (module not in the
provided sources). -/
def FS.delete_file (fs : FS) (path : String) : FS :=
  { fs with files := fs.files.filter (fun kv => !(kv.1 = path)) }

def FS.write_file (fs : FS) (path : String) (content : List (String × String)) : FS :=
  { fs with files := ainsert fs.files path content }

/-! ## The accounts service state

`AccountsService.accounts[name]` is a Python dict that holds connector
instances under connector-name keys, and — for accounts provisioned through
`add_account` / `generate_bot_wallet` — a `"wallet"` key.  The model keeps
the two kinds of entries in separate fields; `wallet = none` models the
`"wallet"` key being absent, `wallet = some none` models `{"wallet": None}`.
(The degenerate case of an exchange connector literally named `"wallet"`,
which in Python would collide with the wallet entry of the same dict, is
excluded by the well-formedness hypothesis `op_wf` where it matters.) -/

structure Connector where
  name : String
  balances : List (String × Rat)
  available : List (String × Rat)
  last_traded : List String → Except Unit (List (String × Rat))

/-- `connector.get_available_balance(token)`. -/
def Connector.available_balance (c : Connector) (token : String) : Rat :=
  (alookup c.available token).getD 0

structure Account where
  wallet : Option (Option String)
  connectors : List (String × Connector)

/-- One entry of the computed account state (token, units, price, value,
available units), as assembled by `update_account_state`. -/
structure BalanceEntry where
  token : String
  units : Rat
  price : Rat
  value : Rat
  available_units : Rat
  deriving DecidableEq

structure ServiceState where
  banned_tokens : List String
  default_quote : String
  accounts : List (String × Account)
  accounts_state : List (String × List (String × List BalanceEntry))
  fs : FS

/-- `AccountsService.get_accounts_state`. -/
def get_accounts_state (s : ServiceState) : List (String × List (String × List BalanceEntry)) :=
  s.accounts_state

/-- `AccountsService.get_default_market`. -/
def get_default_market (quote token : String) : String := token ++ "-" ++ quote

/-- `AccountsService._safe_get_last_traded_prices`: await the connector's
`get_last_traded_prices` under a 5-second timeout; on `TimeoutError` or any
other exception return a zero price for every requested pair.  (For the
`okx_perpetual` connector the successful result's keys go through Python's
`pair.strip("-SWAP")`, a character-set strip.) -/
def safe_get_last_traded_prices (c : Connector) (pairs : List String) :
    List (String × Rat) :=
  match c.last_traded pairs with
  | .ok prices =>
    if c.name = "okx_perpetual" then
      prices.map (fun kv => (py_strip kv.1 "-SWAP", kv.2))
    else prices
  | .error _ => pairs.map (fun p => (p, (0 : Rat)))

/-- The filtered balance list of `update_account_state`: drop zero balances
and denylisted (`BANNED_TOKENS`) tokens. -/
def balances_filtered (banned : List String) (c : Connector) :
    List (String × Rat) :=
  c.balances.filter (fun kv => decide (kv.2 ≠ 0 ∧ kv.1 ∉ banned))

/-- The trading pairs `update_account_state` prices: one default market
`TOKEN-<quote>` per filtered token not containing `"USD"`. -/
def connector_trading_pairs (banned : List String) (quote : String)
    (c : Connector) : List String :=
  (((balances_filtered banned c).map (·.1)).filter
    (fun t => !(str_contains t "USD"))).map (get_default_market quote)

/-- The body of `update_account_state` for one connector: filter out zero and
denylisted balances, build `TOKEN-<quote>` trading pairs for non-USD tokens,
fetch last-traded prices (zero fallback), and assemble the entry list.
Tokens containing `"USD"` are priced at 1; other tokens read the fetched
price map with default 0. -/
def connector_tokens_info (banned : List String) (quote : String) (c : Connector) :
    List BalanceEntry :=
  let balances := balances_filtered banned c
  let last := safe_get_last_traded_prices c (connector_trading_pairs banned quote c)
  balances.map (fun kv =>
    let price : Rat :=
      if str_contains kv.1 "USD" then 1
      else (alookup last (get_default_market quote kv.1)).getD 0
    { token := kv.1, units := kv.2, price := price, value := price * kv.2,
      available_units := c.available_balance kv.1 })

/-- The entries of the Python dict `self.accounts[name]` as iterated by the
inner loop of `update_account_state`.  Besides the connector instances this
dict also carries the `"wallet"` entry left there by `add_account`
(`{"wallet": None}`), `_add_wallet_to_account`, or the
`get_bot_wallet_address` file fallback — a `None`/address value, not a
connector.  The structured model keeps that entry in the `wallet` field;
here it is re-joined (as a `none` value) so the loop iterates it exactly as
Python does.  The relative position of the `"wallet"` entry inside the dict
(first for `add_account`-provisioned accounts, last when the wallet was
generated after the connectors were loaded) is abstracted to first; every
statement reads the result through `alookup`, which entry order does not
affect. -/
def account_entries (acct : Account) : List (String × Option Connector) :=
  (match acct.wallet with
    | some _ => [("wallet", (none : Option Connector))]
    | none => []) ++ acct.connectors.map (fun cc => (cc.1, some cc.2))

/-- What one iteration of the inner loop writes for one dict entry: a
connector's computed entry list — or, for the non-connector `"wallet"`
value, the still-empty `tokens_info` list, because `get_all_balances()` on
it raises `AttributeError`, the `except` swallows it, and the assignment
after the `try` block writes the untouched empty list anyway. -/
def entry_tokens_info (banned : List String) (quote : String) :
    Option Connector → List BalanceEntry
  | some c => connector_tokens_info banned quote c
  | none => []

/-- Inner loop of `update_account_state` over one account's dict entries:
each entry's computed list wholesale replaces the previous one under its
key. -/
def sync_connectors (banned : List String) (quote : String)
    (entries : List (String × Option Connector))
    (inner : List (String × List BalanceEntry)) :
    List (String × List BalanceEntry) :=
  entries.foldl
    (fun inn cc => ainsert inn cc.1 (entry_tokens_info banned quote cc.2)) inner

/-- Outer loop of `update_account_state` over all accounts: ensures the
account's key exists in `accounts_state` (empty map if absent), then
refreshes every entry of its dict. -/
def sync_accounts (banned : List String) (quote : String)
    (accs : List (String × Account))
    (st : List (String × List (String × List BalanceEntry))) :
    List (String × List (String × List BalanceEntry)) :=
  accs.foldl (fun st1 nc =>
    ainsert st1 nc.1 (sync_connectors banned quote (account_entries nc.2)
      ((alookup st1 nc.1).getD []))) st

/-- `AccountsService.update_account_state` (one synchronization pass). -/
def update_account_state (s : ServiceState) : ServiceState :=
  { s with accounts_state :=
      sync_accounts s.banned_tokens s.default_quote s.accounts s.accounts_state }

inductive AddAccountErr where
  | already_exists
  | fs_error
  deriving DecidableEq

/-- `AccountsService.add_account`: raise HTTP 400 ("Account already exists.")
when the name is already registered; otherwise create the credentials
directory, copy the four template files from `master_account`, and register
the account in memory with `{"wallet": None}` and an empty state entry.
The failure result carries the untouched state: the duplicate check happens
before any filesystem operation. -/
def add_account (s : ServiceState) (name : String) :
    (Except AddAccountErr Unit) × ServiceState :=
  if amem s.accounts name then (.error .already_exists, s)
  else
    let fs1 := s.fs.create_folder "credentials" name
    let fs2 := fs1.create_folder ("credentials/" ++ name) "connectors"
    let files_to_copy := ["conf_client.yml", "conf_fee_overrides.yml",
      "hummingbot_logs.yml", ".password_verification"]
    match files_to_copy.foldlM (fun fs f =>
        FS.copy_file fs ("credentials/master_account/" ++ f)
          ("credentials/" ++ name ++ "/" ++ f)) fs2 with
    | some fs3 =>
      (.ok (),
        { s with
            fs := fs3
            accounts := ainsert s.accounts name { wallet := some none, connectors := [] }
            accounts_state := ainsert s.accounts_state name [] })
    | none => (.error .fs_error, { s with fs := fs2 })

/-- `AccountsService.delete_account`: remove the credentials tree and both
in-memory entries. -/
def delete_account (s : ServiceState) (name : String) : ServiceState :=
  { s with
      fs := s.fs.delete_folder "credentials" name
      accounts := aerase s.accounts name
      accounts_state := aerase s.accounts_state name }

/-- `AccountsService.delete_credentials`: when the connector's credential
file exists, delete it and pop the connector from both in-memory maps (each
pop guarded by a membership test). -/
def delete_credentials (s : ServiceState) (account_name connector_name : String) :
    ServiceState :=
  let path := "credentials/" ++ account_name ++ "/connectors/" ++ connector_name
    ++ ".yml"
  if (alookup s.fs.files path).isSome then
    let fs1 := s.fs.delete_file path
    let accounts1 :=
      match alookup s.accounts account_name with
      | some acct =>
        if connector_name = "wallet" ∧ acct.wallet.isSome then
          ainsert s.accounts account_name { acct with wallet := none }
        else if amem acct.connectors connector_name then
          ainsert s.accounts account_name
            { acct with connectors := aerase acct.connectors connector_name }
        else s.accounts
      | none => s.accounts
    let state1 :=
      match alookup s.accounts_state account_name with
      | some inner =>
        if amem inner connector_name then
          ainsert s.accounts_state account_name (aerase inner connector_name)
        else s.accounts_state
      | none => s.accounts_state
    { s with
        fs := fs1
        accounts := accounts1
        accounts_state := state1 }
  else s

/-- `AccountsService.initialize_connector`: ensure the account key exists in
the map (a fresh empty dict if not), then bind the freshly constructed
connector instance under its name. -/
def init_connector (s : ServiceState) (account_name connector_name : String)
    (c : Connector) : ServiceState :=
  let accounts1 :=
    if amem s.accounts account_name then s.accounts
    else ainsert s.accounts account_name { wallet := none, connectors := [] }
  match alookup accounts1 account_name with
  | some acct =>
    let acct1 := { acct with connectors := ainsert acct.connectors connector_name c }
    { s with accounts := ainsert accounts1 account_name acct1 }
  | none => s

/-- `AccountsService.add_connector_keys`: persist the credential file, bind
the freshly built connector under the account, then run one
`update_account_state` pass (the history dump touches only the filesystem). -/
def add_connector_keys (s : ServiceState) (account_name connector_name : String)
    (c : Connector) : ServiceState :=
  match alookup s.accounts account_name with
  | some acct =>
    let fs1 := s.fs.write_file
      ("credentials/" ++ account_name ++ "/connectors/" ++ connector_name ++ ".yml")
      [("keys", "encrypted")]
    update_account_state
      { s with
          fs := fs1
          accounts := ainsert s.accounts account_name
            { acct with connectors := ainsert acct.connectors connector_name c } }
  | none => s

inductive PyErr where
  | key_error
  | value_error
  deriving DecidableEq

/-- `AccountsService._save_account_info`: write
`bots/credentials/<name>/account_info.json` from the in-memory record.
Python `json.dump`s the whole account dict; when connector instances are
cached under the account this raises `TypeError` (unserializable object).
Only the serializable wallet-only record is modelled here — the degenerate
error path matters to no claim, and the `generate_bot_wallet` theorems
depend only on this function leaving `accounts` untouched
(`save_account_info_accounts`), which holds on either path. -/
def save_account_info (s : ServiceState) (account_name : String) : ServiceState :=
  match alookup s.accounts account_name with
  | some acct =>
    let path := "bots/credentials/" ++ account_name ++ "/account_info.json"
    { s with fs := s.fs.write_file path [("wallet", (acct.wallet.getD none).getD "")] }
  | none => s

/-- `AccountsService.generate_bot_wallet`: generate a signing key, derive the
base58 address of the verify key, encrypt and persist the hex-encoded seed
under `bots/credentials/<name>/solana/<address>.json`, then record the
address as the account's wallet (raising `ValueError` when the account does
not exist — note the key file has been written by then). -/
def generate_bot_wallet (s : ServiceState) (account_name : String)
    (B : SecretBoxModel) (secret_key : List Nat) (sk : SigningKeyModel) :
    (Except PyErr String) × ServiceState :=
  let addr := wallet_address sk
  let private_key := hex_str sk.seed
  let encrypted := encrypt_private_key B secret_key private_key
  let fs1 := s.fs.write_file
    ("bots/credentials/" ++ account_name ++ "/solana/" ++ addr ++ ".json")
    [("data", String.mk encrypted)]
  let s1 := { s with fs := fs1 }
  match alookup s1.accounts account_name with
  | some acct =>
    let acct1 := { acct with wallet := some (some addr) }
    let s2 := { s1 with accounts := ainsert s1.accounts account_name acct1 }
    (.ok addr, save_account_info s2 account_name)
  | none => (.error .value_error, s1)

/-- Parsed content of `bots/credentials/<name>/account_info.json`. -/
structure AccountInfoFile where
  wallet : Option String

/-- `AccountsService.get_bot_wallet_address`: on a hit (account present and
its `"wallet"` entry truthy) return the cached address without touching
state.  On a miss, load the account-info file and **replace the whole
in-memory entry for the account with the file's contents** (which carry no
connector instances), then return its wallet field; `ValueError` when the
file is absent, `KeyError` when the account dict has no `"wallet"` key at
all. `file_info` is the parsed content of the account-info file (`none` when
the file does not exist). -/
def get_bot_wallet_address (s : ServiceState) (account_name : String)
    (file_info : Option AccountInfoFile) :
    (Except PyErr (Option String)) × ServiceState :=
  let fallback : (Except PyErr (Option String)) × ServiceState :=
    match file_info with
    | some info =>
      let entry : Account := { wallet := some info.wallet, connectors := [] }
      (.ok info.wallet, { s with accounts := ainsert s.accounts account_name entry })
    | none => (.error .value_error, s)
  match alookup s.accounts account_name with
  | none => fallback
  | some acct =>
    match acct.wallet with
    | none => (.error .key_error, s)
    | some none => fallback
    | some (some w) => if w = "" then fallback else (.ok (some w), s)

/-! ## The service operations as a small-step language (for the wallet
immutability claim) -/

inductive Op where
  | op_add_account (name : String)
  | op_delete_account (name : String)
  | op_delete_credentials (account_name connector_name : String)
  | op_init_connector (account_name connector_name : String) (c : Connector)
  | op_add_connector_keys (account_name connector_name : String) (c : Connector)
  | op_update_account_state
  | op_generate_wallet (account_name : String) (B : SecretBoxModel)
      (secret_key : List Nat) (sk : SigningKeyModel)
  | op_get_wallet_address (account_name : String)
      (file_info : Option AccountInfoFile)

def step (o : Op) (s : ServiceState) : ServiceState :=
  match o with
  | .op_add_account n => (add_account s n).2
  | .op_delete_account n => delete_account s n
  | .op_delete_credentials an cn => delete_credentials s an cn
  | .op_init_connector an cn c => init_connector s an cn c
  | .op_add_connector_keys an cn c => add_connector_keys s an cn c
  | .op_update_account_state => update_account_state s
  | .op_generate_wallet an B key sk => (generate_bot_wallet s an B key sk).2
  | .op_get_wallet_address an fi => (get_bot_wallet_address s an fi).2

/-- Operations that do not use the reserved dict key `"wallet"` as a
connector name (in Python the account dict mixes connector entries with the
`"wallet"` entry; an exchange connector named `"wallet"` would collide). -/
def op_wf : Op → Prop
  | .op_delete_credentials _ cn => cn ≠ "wallet"
  | .op_init_connector _ cn _ => cn ≠ "wallet"
  | .op_add_connector_keys _ cn _ => cn ≠ "wallet"
  | _ => True

/-- The recorded (truthy) wallet address carried by an account-map entry:
its `"wallet"` field when it holds a non-empty string. -/
def wallet_val : Option Account → Option String
  | some acct =>
    match acct.wallet with
    | some (some w) => if w = "" then none else some w
    | _ => none
  | none => none

/-- The recorded (truthy) wallet address of an account. -/
def wallet_of (s : ServiceState) (account_name : String) : Option String :=
  wallet_val (alookup s.accounts account_name)

/-! ## DockerManager (`services/docker_service.py`)

`create_hummingbot_instance` works on the same filesystem model; the Docker
runtime is a list of existing container names, and `containers.run` is
modelled by its documented behaviour: it raises an API error when a container
with the requested name already exists, and registers the container
otherwise. -/

structure HummingbotInstanceConfig where
  instance_name : String
  credentials_profile : String
  image : String

/-- `shutil.copytree src dst`: register `dst` as a directory and copy every
file under `src/` to the corresponding path under `dst/`. -/
def FS.copy_tree (fs : FS) (src dst : String) : FS :=
  { folders := fs.folders ++ [dst],
    files := fs.files ++ fs.files.filterMap (fun kv =>
      if starts_with kv.1.toList (src ++ "/").toList then
        some (dst ++ "/" ++ String.mk (kv.1.toList.drop (src.length + 1)), kv.2)
      else none) }

/-- `shutil.rmtree p`: drop the directory and everything under it. -/
def FS.rm_tree (fs : FS) (p : String) : FS :=
  { folders := fs.folders.filter
      (fun q => !(q = p || starts_with q.toList (p ++ "/").toList)),
    files := fs.files.filter
      (fun kv => !starts_with kv.1.toList (p ++ "/").toList) }

/-- `DockerManager.create_hummingbot_instance`, as written: create the
instance directory tree only when it does not already exist, remove any
existing `conf` destination, copy credentials/script/controller
configuration in, rewrite `instance_id` inside `conf/conf_client.yml`, and
ask the Docker runtime to run the container.  There is no try/except around
the body (the function ends with an unreachable `return {"success": False,
"message": str(e)}` after the success return): a duplicate container name
surfaces as a raised Docker API error (`.error ()`) after the filesystem has
already been rewritten. -/
def create_hummingbot_instance (cfg : HummingbotInstanceConfig) (fs : FS)
    (containers : List String) : (Except Unit String) × FS × List String :=
  let instance_name := "hummingbot-" ++ cfg.instance_name
  let instance_dir := "bots/instances/" ++ instance_name
  let fs1 :=
    if instance_dir ∈ fs.folders then fs
    else { fs with folders := fs.folders ++
      [instance_dir, instance_dir ++ "/data", instance_dir ++ "/logs"] }
  let source_credentials_dir := "bots/credentials/" ++ cfg.credentials_profile
  let dest_conf := instance_dir ++ "/conf"
  let fs2 := if dest_conf ∈ fs1.folders then fs1.rm_tree dest_conf else fs1
  let fs3 := fs2.copy_tree source_credentials_dir dest_conf
  let fs4 := fs3.copy_tree "bots/conf/scripts" (dest_conf ++ "/scripts")
  let fs5 := fs4.copy_tree "bots/conf/controllers" (dest_conf ++ "/controllers")
  let conf_path := dest_conf ++ "/conf_client.yml"
  let client_config := (alookup fs5.files conf_path).getD []
  let fs6 := fs5.write_file conf_path (ainsert client_config "instance_id" instance_name)
  if instance_name ∈ containers then (.error (), fs6, containers)
  else (.ok ("Instance " ++ instance_name ++ " created successfully."), fs6,
    instance_name :: containers)

/-! ## Telemetry validation (`services/bots_orchestrator.py`)

Raw metric values arriving in a performance message. -/

inductive PValue where
  | num (q : Rat)
  | str (s : String)
  | dict (entries : List (String × Rat))
  | other
  deriving DecidableEq

def PValue.is_num : PValue → Bool
  | .num _ => true
  | _ => false

/-- Model of the `ControllerPerformance` pydantic record (`services/types.py`).
`plr` models the `profit_loss_ratio` field and `sharpe` the `sharpe_ratio`
field (which defaults to 0); the non-numeric payload fields
(`active_positions`, `close_type_counts`) are carried as raw values. -/
structure ControllerPerformance where
  total_pnl : Rat
  total_trades : Rat
  win_rate : Rat
  plr : Rat
  sharpe : Rat
  max_drawdown : Rat
  start_timestamp : Rat
  end_timestamp : Rat
  close_type_counts : List (String × Rat)
  deriving DecidableEq

/-- Model of `ControllerStatus` (`services/types.py`). -/
structure ControllerStatus where
  status : String
  performance : Option ControllerPerformance
  error : Option String
  deriving DecidableEq

/-- Pydantic validation of `ControllerPerformance(**performance)`: every
required field present and numeric, `sharpe_ratio` defaulting to 0,
`close_type_counts` to `{}` and `active_positions` to `[]`; any
missing/mistyped field raises.  A present `active_positions` value that is
a number, a string or a mapping is rejected (pydantic requires
`List[Position]`); an `.other` value — the only way this model can carry an
actual position list — is accepted, since its validity cannot be inspected
here.  (Note a *list-valued* `active_positions` already fails the earlier
numeric-sum probe, so with real messages this validation is reached only
with `active_positions` absent.) -/
def mk_controller_performance (perf : List (String × PValue)) :
    Option ControllerPerformance :=
  let get_num := fun k => match alookup perf k with
    | some (.num q) => some q
    | _ => none
  match get_num "total_pnl", get_num "total_trades", get_num "win_rate",
      get_num "profit_loss_ratio", get_num "max_drawdown",
      get_num "start_timestamp", get_num "end_timestamp" with
  | some tp, some tt, some wr, some pl, some md, some st, some et =>
    let sharpe := match alookup perf "sharpe_ratio" with
      | none => some (0 : Rat)
      | some (.num q) => some q
      | some _ => none
    let ctc := match alookup perf "close_type_counts" with
      | none => some ([] : List (String × Rat))
      | some (.dict d) => some d
      | some _ => none
    let ap_ok := match alookup perf "active_positions" with
      | none => true
      | some .other => true
      | some _ => false
    if ap_ok then
    match sharpe, ctc with
    | some sh, some cc =>
      some
        { total_pnl := tp
          total_trades := tt
          win_rate := wr
          plr := pl
          sharpe := sh
          max_drawdown := md
          start_timestamp := st
          end_timestamp := et
          close_type_counts := cc }
    | _, _ => none
    else none
  | _, _, _, _, _, _, _ => none

/-- The `sum(metric for key, metric in performance.items() if key !=
"close_type_counts")` probe: succeeds exactly when every metric outside
`close_type_counts` is numeric. -/
def all_numeric (perf : List (String × PValue)) : Bool :=
  perf.all (fun kv => kv.1 = "close_type_counts" || kv.2.is_num)

/-- The status produced when the record raises: `"error"` with the
diagnostic message (whose Python form appends `str(e)` to this fixed
text). -/
def err_controller_status : ControllerStatus :=
  { status := "error"
    performance := none
    error := some "Some metrics are not numeric, check logs and restart controller: " }

/-- The per-record body of `BotsManager.determine_controller_performance`:
the `try` block sums the non-`close_type_counts` metrics (raising on any
non-numeric value) and validates the record; any exception yields an
`error` status carrying the diagnostic message. -/
def controller_record_status (perf : List (String × PValue)) : ControllerStatus :=
  if all_numeric perf then
    match mk_controller_performance perf with
    | some p => { status := "running", performance := some p, error := none }
    | none => err_controller_status
  else err_controller_status

/-- `BotsManager.determine_controller_performance`: validate every
controller's record independently. -/
def determine_controller_performance
    (controllers_performance : List (String × List (String × PValue))) :
    List (String × ControllerStatus) :=
  controllers_performance.map (fun cp => (cp.1, controller_record_status cp.2))

/-! ## The durable dump loop (`dump_account_state_loop`)

Wall-clock times are modelled in seconds.  The loop first waits for the
state-updated event, then repeatedly: dump, compute the next aligned
wall-clock boundary, sleep until it.  `next_log_time` mirrors
`(now + interval).replace(second=0, microsecond=0)` followed by subtracting
`next.minute % interval` minutes. -/

def next_log_time (now : Nat) (interval_minutes : Nat) : Nat :=
  let n1 := (now + interval_minutes * 60) / 60 * 60
  n1 - n1 / 60 % 60 % interval_minutes * 60

/-- The time of the `k`-th dump performed by `dump_account_state_loop`, with
the state-updated event firing at `event_time` and dumps/roll-overs taking
negligible time: the loop dumps immediately after the event, then sleeps to
each next aligned boundary. -/
def dump_times (event_time interval_minutes : Nat) : Nat → Nat
  | 0 => event_time
  | k + 1 => next_log_time (dump_times event_time interval_minutes k) interval_minutes

/-! ## Concrete fixtures used by witnesses and counterexamples -/

def demo_connector : Connector :=
  { name := "binance"
    balances := [("BAD", 5), ("SOL", 2), ("USDC", 7)]
    available := [("SOL", 2), ("USDC", 7)]
    last_traded := fun _ => .ok [("SOL-USDC", 20)] }

def err_connector : Connector :=
  { name := "binance"
    balances := [("SOL", 2), ("USDC", 7)]
    available := [("SOL", 2), ("USDC", 7)]
    last_traded := fun _ => .error () }

def demo_fs : FS := { folders := ["credentials/acct"], files := [] }

def c1_state : ServiceState :=
  { banned_tokens := ["BAD"]
    default_quote := "USDC"
    accounts := [("acct", { wallet := some none, connectors := [("binance", demo_connector)] })]
    accounts_state := []
    fs := demo_fs }

def c5_state : ServiceState :=
  { banned_tokens := []
    default_quote := "USDC"
    accounts := [("empty_acct", { wallet := some none, connectors := [] }),
      ("acct", { wallet := some none, connectors := [("binance", demo_connector)] })]
    accounts_state := [("empty_acct", [])]
    fs := demo_fs }

def c6_state : ServiceState :=
  { banned_tokens := []
    default_quote := "USDC"
    accounts := [("acct", { wallet := some none, connectors := [("ex", err_connector)] })]
    accounts_state := []
    fs := demo_fs }

def c9_state : ServiceState :=
  { banned_tokens := []
    default_quote := "USDC"
    accounts := [("acct", { wallet := some (some "A"), connectors := [] })]
    accounts_state := [("acct", [])]
    fs := demo_fs }

def c10_state : ServiceState :=
  { banned_tokens := []
    default_quote := "USDC"
    accounts := [("acct", { wallet := some none, connectors := [("binance", demo_connector)] })]
    accounts_state := [("acct", [])]
    fs := demo_fs }

def c3_state : ServiceState :=
  { banned_tokens := []
    default_quote := "USDC"
    accounts := [("acct", { wallet := some none, connectors := [] })]
    accounts_state := [("acct", [])]
    fs := { folders := ["credentials/acct"],
            files := [("credentials/acct/conf_client.yml", [("instance_id", "acct")])] } }

def c4_cfg : HummingbotInstanceConfig :=
  { instance_name := "w1"
    credentials_profile := "acct"
    image := "hummingbot/hummingbot:latest" }

def c4_fs : FS :=
  { folders := ["bots/instances/hummingbot-w1", "bots/instances/hummingbot-w1/data",
      "bots/instances/hummingbot-w1/logs", "bots/instances/hummingbot-w1/conf",
      "bots/credentials/acct", "bots/conf/scripts", "bots/conf/controllers"]
    files := [("bots/credentials/acct/conf_client.yml", [("x", "template")]),
      ("bots/instances/hummingbot-w1/conf/conf_client.yml",
        [("instance_id", "hummingbot-w1"), ("runtime_secret", "OLD")])] }

def good_perf : List (String × PValue) :=
  [("total_pnl", .num 3), ("total_trades", .num 12), ("win_rate", .num (1/2)),
   ("profit_loss_ratio", .num 2), ("sharpe_ratio", .num 1),
   ("max_drawdown", .num (1/10)), ("start_timestamp", .num 1700000000),
   ("end_timestamp", .num 1700000600), ("close_type_counts", .dict [("take_profit", 3)])]

def bad_perf : List (String × PValue) :=
  [("total_pnl", .num 5), ("total_trades", .str "bad")]

def c8_input : List (String × List (String × PValue)) :=
  [("controller_1", bad_perf), ("controller_2", good_perf)]

/-! ## Specification predicates -/

/-- No entry of a per-account connector map carries a denylisted token. -/
def inner_ok (banned : List String)
    (inner : List (String × List BalanceEntry)) : Prop :=
  ∀ cn entries, alookup inner cn = some entries → ∀ e ∈ entries, e.token ∉ banned

/-- No entry anywhere in the snapshot carries a denylisted token. -/
def snapshot_ok (banned : List String)
    (st : List (String × List (String × List BalanceEntry))) : Prop :=
  ∀ an inner, alookup st an = some inner → inner_ok banned inner

/-- Every non-USD entry has price 0 (and hence value 0); USD entries have
price 1. -/
def entries_prices_zeroed (entries : List BalanceEntry) : Prop :=
  ∀ e ∈ entries,
    (str_contains e.token "USD" = false → e.price = 0 ∧ e.value = 0) ∧
    (str_contains e.token "USD" = true → e.price = 1)

/-- The in-memory account registry and the credentials directory tree agree:
an account name is registered exactly when its directory exists.
`initialize_accounts` establishes this at startup (it registers precisely the
directories found under `credentials/`), and `add_account`/`delete_account`
maintain it. -/
def registry_dirs_coherent (s : ServiceState) : Prop :=
  ∀ name, amem s.accounts name ↔ s.fs.dir_exists ("credentials/" ++ name)

/-- The `get_bot_wallet_address` cache-miss test, as the code performs it:
the account is absent from `accounts`, or its `"wallet"` entry is present
and falsy (`None` or the empty string). -/
def wallet_cache_miss (s : ServiceState) (account_name : String) : Bool :=
  match alookup s.accounts account_name with
  | none => true
  | some acct =>
    match acct.wallet with
    | some none => true
    | some (some w) => w = ""
    | none => false

/-- The operation is a `generate_bot_wallet` for this very account and `b` is
the address it derives. -/
def replaces_wallet_via_generate (o : Op) (account_name b : String) : Prop :=
  match o with
  | .op_generate_wallet an2 _ _ sk => an2 = account_name ∧ b = wallet_address sk
  | _ => False

/-! # Theorems -/

/-! ## Association list lemmas -/

theorem alookup_ainsert {α : Type} (l : List (String × α)) (k : String) (v : α) :
    alookup (ainsert l k v) k = some v := by
  induction l with
  | nil => simp [ainsert, alookup]
  | cons hd tl ih =>
    obtain ⟨k', v'⟩ := hd
    by_cases h : k' = k
    · simp [ainsert, alookup, h]
    · simp [ainsert, alookup, h, ih]

theorem alookup_ainsert_ne {α : Type} (l : List (String × α)) (k k' : String)
    (v : α) (h : k ≠ k') : alookup (ainsert l k v) k' = alookup l k' := by
  induction l with
  | nil => simp [ainsert, alookup, h]
  | cons hd tl ih =>
    obtain ⟨k'', v''⟩ := hd
    by_cases h2 : k'' = k
    · subst h2; simp [ainsert, alookup, h]
    · simp [ainsert, alookup, h2, ih]

theorem alookup_ainsert_cases {α : Type} (l : List (String × α)) (k k' : String)
    (v : α) (w : α) (h : alookup (ainsert l k v) k' = some w) :
    (k' = k ∧ w = v) ∨ alookup l k' = some w := by
  by_cases hk : k' = k
  · subst hk
    rw [alookup_ainsert] at h
    exact Or.inl ⟨rfl, (Option.some.inj h).symm⟩
  · rw [alookup_ainsert_ne _ _ _ _ (fun he => hk he.symm)] at h
    exact Or.inr h

theorem alookup_aerase_ne {α : Type} (l : List (String × α)) (k k' : String)
    (h : k ≠ k') : alookup (aerase l k) k' = alookup l k' := by
  induction l with
  | nil => simp [aerase]
  | cons hd tl ih =>
    obtain ⟨k'', v''⟩ := hd
    by_cases h2 : k'' = k
    · subst h2; simp [aerase, alookup, h]
    · simp [aerase, alookup, h2, ih]

theorem alookup_none_of_not_mem_keys {α : Type} (l : List (String × α))
    (k : String) (h : k ∉ l.map (·.1)) : alookup l k = none := by
  induction l with
  | nil => rfl
  | cons hd tl ih =>
    obtain ⟨k1, v1⟩ := hd
    simp only [List.map_cons, List.mem_cons] at h
    push_neg at h
    have hne : ¬(k1 = k) := by intro he; exact h.1 he.symm
    simp only [alookup, if_neg hne]
    exact ih h.2

theorem alookup_aerase_self {α : Type} (l : List (String × α)) (k : String)
    (hnd : (l.map (·.1)).Nodup) : alookup (aerase l k) k = none := by
  induction l with
  | nil => simp [aerase, alookup]
  | cons hd tl ih =>
    obtain ⟨k1, v1⟩ := hd
    simp only [List.map_cons, List.nodup_cons] at hnd
    by_cases h2 : k1 = k
    · subst h2
      simp only [aerase, if_pos rfl]
      exact alookup_none_of_not_mem_keys tl k1 hnd.1
    · simp only [aerase, if_neg h2, alookup, if_neg h2]
      exact ih hnd.2

/-! ## Base64 lemmas -/

theorem dtbl64_tbl64 : ∀ n < 64, dtbl64 (tbl64 n) = some n := by decide

theorem tbl64_ne_pad : ∀ n < 64, tbl64 n ≠ '=' := by decide

theorem b64_roundtrip (bs : List Nat) (h : ∀ b ∈ bs, b < 256) :
    b64decode (b64encode bs) = some bs := by
  induction bs using b64encode.induct with
  | case1 => simp [b64encode, b64decode]
  | case2 a =>
    have ha : a < 256 := h a (by simp)
    have h1 : dtbl64 (tbl64 (a / 4)) = some (a / 4) := dtbl64_tbl64 _ (by omega)
    have h2 : dtbl64 (tbl64 (a % 4 * 16)) = some (a % 4 * 16) :=
      dtbl64_tbl64 _ (by omega)
    simp [b64encode, b64decode, h1, h2]
    omega
  | case3 a b =>
    have ha : a < 256 := h a (by simp)
    have hb : b < 256 := h b (by simp)
    have hne : tbl64 (b % 16 * 4) ≠ '=' := tbl64_ne_pad _ (by omega)
    have h1 : dtbl64 (tbl64 (a / 4)) = some (a / 4) := dtbl64_tbl64 _ (by omega)
    have h2 : dtbl64 (tbl64 (a % 4 * 16 + b / 16)) = some (a % 4 * 16 + b / 16) :=
      dtbl64_tbl64 _ (by omega)
    have h3 : dtbl64 (tbl64 (b % 16 * 4)) = some (b % 16 * 4) :=
      dtbl64_tbl64 _ (by omega)
    simp [b64encode, b64decode, h1, h2, h3, hne]
    omega
  | case4 a b c rest ih =>
    have ha : a < 256 := h a (by simp)
    have hb : b < 256 := h b (by simp)
    have hc : c < 256 := h c (by simp)
    have hrest : ∀ x ∈ rest, x < 256 := fun x hx => h x (by simp [hx])
    have hne : tbl64 (c % 64) ≠ '=' := tbl64_ne_pad _ (by omega)
    have h1 : dtbl64 (tbl64 (a / 4)) = some (a / 4) := dtbl64_tbl64 _ (by omega)
    have h2 : dtbl64 (tbl64 (a % 4 * 16 + b / 16)) = some (a % 4 * 16 + b / 16) :=
      dtbl64_tbl64 _ (by omega)
    have h3 : dtbl64 (tbl64 (b % 16 * 4 + c / 64)) = some (b % 16 * 4 + c / 64) :=
      dtbl64_tbl64 _ (by omega)
    have h4 : dtbl64 (tbl64 (c % 64)) = some (c % 64) := dtbl64_tbl64 _ (by omega)
    have k1 : a / 4 * 4 + (a % 4 * 16 + b / 16) / 16 = a := by omega
    have k2 : (a % 4 * 16 + b / 16) % 16 * 16 + (b % 16 * 4 + c / 64) / 4 = b := by
      omega
    have k3 : (b % 16 * 4 + c / 64) % 4 * 64 + c % 64 = c := by omega
    simp [b64encode, b64decode, h1, h2, h3, h4, hne, ih hrest, k1, k2, k3]

theorem bytes_str_str_bytes (s : String) : bytes_str (str_bytes s) = s := by
  unfold bytes_str str_bytes
  rw [List.map_map]
  have hcomp : (Char.ofNat ∘ Char.toNat) = id := by
    funext c; exact Char.ofNat_toNat c
  rw [hcomp, List.map_id]
  cases s; rfl

/-! ## Claim C2 -/

/-- C2: for every private-key string `p` and fixed symmetric key,
`_decrypt_private_key (_encrypt_private_key p) = p` (round-trip identity,
for any `SecretBox` satisfying the PyNaCl contract), and the wallet address
returned by `generate_bot_wallet` is a deterministic function of the
generated public key: the base58 encoding of the verify-key bytes. -/
theorem C2_encrypt_roundtrip_address_deterministic :
    (∀ (B : SecretBoxModel) (key : List Nat) (p : String),
      decrypt_private_key B key (encrypt_private_key B key p) = some p) ∧
    (∀ sk1 sk2 : SigningKeyModel, sk1.verify_key = sk2.verify_key →
      wallet_address sk1 = wallet_address sk2) ∧
    (∀ (s : ServiceState) (an : String) (B : SecretBoxModel) (key : List Nat)
      (sk : SigningKeyModel) (addr : String),
      (generate_bot_wallet s an B key sk).1 = .ok addr →
      addr = b58encode sk.verify_key) := by
  refine ⟨?_, ?_, ?_⟩
  · intro B key p
    unfold decrypt_private_key encrypt_private_key
    rw [b64_roundtrip _ (B.box_bytes key (str_bytes p))]
    simp [B.box_roundtrip, bytes_str_str_bytes]
  · intro sk1 sk2 h
    unfold wallet_address
    rw [h]
  · intro s an B key sk addr h
    unfold generate_bot_wallet at h
    dsimp only at h
    split at h
    · injection h with h2
      rw [← h2]
      rfl
    · exact absurd h (by simp)

/-- Witness for C2 at concrete inputs: the toy `SecretBox` instance, key
`[7]`, plaintext `"0a1b"`; two signing keys with equal verify keys; and a
concrete `generate_bot_wallet` call returning the base58 address `"3"` for
verify key bytes `[2]`. -/
theorem C2_witness :
    decrypt_private_key toy_box [7] (encrypt_private_key toy_box [7] "0a1b")
      = some "0a1b" ∧
    wallet_address ⟨[1], [2]⟩ = wallet_address ⟨[3], [2]⟩ ∧
    ("3" : String) = b58encode ([2] : List Nat) :=
  ⟨C2_encrypt_roundtrip_address_deterministic.1 toy_box [7] "0a1b",
   C2_encrypt_roundtrip_address_deterministic.2.1 ⟨[1], [2]⟩ ⟨[3], [2]⟩ rfl,
   C2_encrypt_roundtrip_address_deterministic.2.2 c9_state "acct" toy_box [7]
     ⟨[1], [2]⟩ "3" rfl⟩

/-! ## Synchronization-pass lemmas -/

theorem mem_tokens_info_not_banned (banned : List String) (quote : String)
    (c : Connector) (e : BalanceEntry)
    (he : e ∈ connector_tokens_info banned quote c) : e.token ∉ banned := by
  simp only [connector_tokens_info, List.mem_map] at he
  obtain ⟨kv, hkv, hekv⟩ := he
  subst hekv
  simp only [balances_filtered, List.mem_filter, decide_eq_true_eq] at hkv
  exact hkv.2.2

theorem alookup_zero_map (pairs : List String) (m : String) :
    (alookup (pairs.map (fun p => (p, (0 : Rat)))) m).getD 0 = 0 := by
  induction pairs with
  | nil => rfl
  | cons p rest ih =>
    simp only [List.map_cons, alookup]
    by_cases h : p = m
    · simp [h]
    · simp only [if_neg h]
      exact ih

theorem sync_connectors_not_mem (banned : List String) (quote : String)
    (entries : List (String × Option Connector))
    (inner : List (String × List BalanceEntry)) (cn : String)
    (h : cn ∉ entries.map (·.1)) :
    alookup (sync_connectors banned quote entries inner) cn = alookup inner cn := by
  induction entries generalizing inner with
  | nil => rfl
  | cons hd tl ih =>
    simp only [List.map_cons, List.mem_cons] at h
    push_neg at h
    show alookup (sync_connectors banned quote tl
      (ainsert inner hd.1 (entry_tokens_info banned quote hd.2))) cn
      = alookup inner cn
    rw [ih _ h.2, alookup_ainsert_ne _ _ _ _ (fun he => h.1 he.symm)]

theorem sync_connectors_lookup (banned : List String) (quote : String)
    (entries : List (String × Option Connector))
    (inner : List (String × List BalanceEntry)) (cn : String)
    (oc : Option Connector)
    (hnd : (entries.map (·.1)).Nodup) (hmem : (cn, oc) ∈ entries) :
    alookup (sync_connectors banned quote entries inner) cn =
      some (entry_tokens_info banned quote oc) := by
  induction entries generalizing inner with
  | nil => cases hmem
  | cons hd tl ih =>
    simp only [List.map_cons, List.nodup_cons] at hnd
    rcases List.mem_cons.mp hmem with heq | hm
    · subst heq
      show alookup (sync_connectors banned quote tl
        (ainsert inner cn (entry_tokens_info banned quote oc))) cn = _
      rw [sync_connectors_not_mem _ _ _ _ _ hnd.1, alookup_ainsert]
    · exact ih _ hnd.2 hm

theorem sync_accounts_not_mem (banned : List String) (quote : String)
    (accs : List (String × Account))
    (st : List (String × List (String × List BalanceEntry))) (n : String)
    (h : n ∉ accs.map (·.1)) :
    alookup (sync_accounts banned quote accs st) n = alookup st n := by
  induction accs generalizing st with
  | nil => rfl
  | cons hd tl ih =>
    simp only [List.map_cons, List.mem_cons] at h
    push_neg at h
    show alookup (sync_accounts banned quote tl
      (ainsert st hd.1 (sync_connectors banned quote (account_entries hd.2)
        ((alookup st hd.1).getD [])))) n = alookup st n
    rw [ih _ h.2, alookup_ainsert_ne _ _ _ _ (fun he => h.1 he.symm)]

theorem sync_accounts_lookup (banned : List String) (quote : String)
    (accs : List (String × Account))
    (st : List (String × List (String × List BalanceEntry)))
    (n : String) (acct : Account)
    (hnd : (accs.map (·.1)).Nodup) (hmem : (n, acct) ∈ accs) :
    alookup (sync_accounts banned quote accs st) n =
      some (sync_connectors banned quote (account_entries acct)
        ((alookup st n).getD [])) := by
  induction accs generalizing st with
  | nil => cases hmem
  | cons hd tl ih =>
    simp only [List.map_cons, List.nodup_cons] at hnd
    rcases List.mem_cons.mp hmem with heq | hm
    · subst heq
      show alookup (sync_accounts banned quote tl
        (ainsert st n (sync_connectors banned quote (account_entries acct)
          ((alookup st n).getD [])))) n = _
      rw [sync_accounts_not_mem _ _ _ _ _ hnd.1, alookup_ainsert]
    · have hinmap : n ∈ tl.map (·.1) := List.mem_map.mpr ⟨(n, acct), hm, rfl⟩
      have hne : hd.1 ≠ n := fun he => hnd.1 (he ▸ hinmap)
      show alookup (sync_accounts banned quote tl
        (ainsert st hd.1 (sync_connectors banned quote (account_entries hd.2)
          ((alookup st hd.1).getD [])))) n = _
      rw [ih _ hnd.2 hm, alookup_ainsert_ne _ _ _ _ hne]

theorem inner_ok_ainsert (banned : List String)
    (inner : List (String × List BalanceEntry)) (cn : String)
    (v : List BalanceEntry) (h1 : inner_ok banned inner)
    (h2 : ∀ e ∈ v, e.token ∉ banned) : inner_ok banned (ainsert inner cn v) := by
  intro cn2 entries hl e he
  rcases alookup_ainsert_cases _ _ _ _ _ hl with ⟨_, rfl⟩ | hold
  · exact h2 e he
  · exact h1 cn2 entries hold e he

theorem mem_entry_tokens_info_not_banned (banned : List String)
    (quote : String) (oc : Option Connector) (e : BalanceEntry)
    (he : e ∈ entry_tokens_info banned quote oc) : e.token ∉ banned := by
  cases oc with
  | some c => exact mem_tokens_info_not_banned banned quote c e he
  | none => cases he

theorem sync_connectors_ok (banned : List String) (quote : String)
    (entries : List (String × Option Connector))
    (inner : List (String × List BalanceEntry))
    (h : inner_ok banned inner) :
    inner_ok banned (sync_connectors banned quote entries inner) := by
  induction entries generalizing inner with
  | nil => exact h
  | cons hd tl ih =>
    exact ih _ (inner_ok_ainsert _ _ _ _ h
      (fun e he => mem_entry_tokens_info_not_banned _ _ _ _ he))

theorem snapshot_ok_ainsert (banned : List String)
    (st : List (String × List (String × List BalanceEntry))) (an : String)
    (v : List (String × List BalanceEntry)) (h1 : snapshot_ok banned st)
    (h2 : inner_ok banned v) : snapshot_ok banned (ainsert st an v) := by
  intro an2 inner hl
  rcases alookup_ainsert_cases _ _ _ _ _ hl with ⟨_, rfl⟩ | hold
  · exact h2
  · exact h1 an2 inner hold

theorem sync_accounts_ok (banned : List String) (quote : String)
    (accs : List (String × Account))
    (st : List (String × List (String × List BalanceEntry)))
    (h : snapshot_ok banned st) :
    snapshot_ok banned (sync_accounts banned quote accs st) := by
  induction accs generalizing st with
  | nil => exact h
  | cons hd tl ih =>
    apply ih
    apply snapshot_ok_ainsert _ _ _ _ h
    apply sync_connectors_ok
    cases hl : alookup st hd.1 with
    | some inner => exact (by simpa using h hd.1 inner hl)
    | none =>
      intro cn entries hl2 e he
      simp [alookup] at hl2

/-! ## Claim C1 -/

/-- C1: on every synchronization pass, no `BalanceEntry` for a denylisted
(`BANNED_TOKENS`) token appears anywhere in the computed `accounts_state`
snapshot, whatever balances the connectors report: `update_account_state`
preserves (and its freshly written entry lists satisfy unconditionally) the
banned-token-free snapshot invariant. -/
theorem C1_no_banned_token_in_snapshot (s : ServiceState)
    (h : snapshot_ok s.banned_tokens (get_accounts_state s)) :
    snapshot_ok s.banned_tokens (get_accounts_state (update_account_state s)) := by
  unfold get_accounts_state update_account_state at *
  exact sync_accounts_ok _ _ _ _ h

/-- Witness for C1: a concrete account whose connector reports a positive
balance for the denylisted token `"BAD"`; the computed snapshot contains no
entry for it. -/
theorem C1_witness :
    snapshot_ok ["BAD"] (get_accounts_state (update_account_state c1_state)) :=
  C1_no_banned_token_in_snapshot c1_state
    (by intro an inner h; simp [get_accounts_state, c1_state, alookup] at h)

/-! ## Claim C5 (corrected) -/

/-- Counterexample to C5 as stated: the zero-connector account
`"empty_acct"` was provisioned by `add_account`, so its account dict is
`{"wallet": None}`; the inner loop of `update_account_state` iterates that
`"wallet"` entry too (the `AttributeError` from calling
`get_all_balances()` on `None` is swallowed), and then writes
`accounts_state["empty_acct"]["wallet"] = []` — after the pass the
account's map is `{"wallet": []}`, which has an entry, not the claimed
empty map. -/
theorem C5_counterexample :
    alookup (get_accounts_state (update_account_state c5_state)) "empty_acct"
      = some [("wallet", [])] ∧
    alookup (get_accounts_state (update_account_state c5_state)) "empty_acct"
      ≠ some [] := by
  refine ⟨by decide, by decide⟩

/-- C5 as amended: for an account with zero connectors, after a
synchronization pass `get_accounts_state` contains that account's key
(present, never absent, never null); its map holds no connector entry — it
is exactly empty when the account dict carries no `"wallet"` entry, and
exactly the degenerate `{"wallet": []}` when it does (as `add_account`
leaves it) — provided its snapshot entry was absent or empty before the
pass (which `add_account` establishes). -/
theorem C5_amended_zero_connectors_wallet_entry_only (s : ServiceState)
    (n : String) (acct : Account)
    (hnd : (s.accounts.map (·.1)).Nodup)
    (hmem : (n, acct) ∈ s.accounts)
    (hzero : acct.connectors = [])
    (hpre : alookup (get_accounts_state s) n = none ∨
      alookup (get_accounts_state s) n = some []) :
    alookup (get_accounts_state (update_account_state s)) n =
      some (match acct.wallet with
        | some _ => [("wallet", ([] : List BalanceEntry))]
        | none => []) := by
  unfold get_accounts_state update_account_state
  rw [sync_accounts_lookup _ _ _ _ _ _ hnd hmem]
  have hentries : account_entries acct =
      (match acct.wallet with
        | some _ => [("wallet", (none : Option Connector))]
        | none => []) := by
    unfold account_entries
    rw [hzero]
    simp
  rw [hentries]
  unfold get_accounts_state at hpre
  rcases hpre with h | h <;> rw [h] <;> cases hw : acct.wallet <;> rfl

/-- Witness for the amended C5: the concrete `add_account`-provisioned
account `"empty_acct"` with no connectors; after the pass its key is bound
to exactly `{"wallet": []}`. -/
theorem C5_witness :
    alookup (get_accounts_state (update_account_state c5_state)) "empty_acct"
      = some [("wallet", [])] :=
  C5_amended_zero_connectors_wallet_entry_only c5_state "empty_acct"
    { wallet := some none, connectors := [] }
    (by decide) (by exact List.mem_cons_self _ _) rfl (Or.inr (by decide))

theorem account_entries_keys (acct : Account) :
    (account_entries acct).map (·.1) =
      (match acct.wallet with
        | some _ => ["wallet"]
        | none => []) ++ acct.connectors.map (·.1) := by
  unfold account_entries
  cases acct.wallet <;> simp only [List.map_append, List.map_map,
    List.nil_append, List.map_cons, List.map_nil, List.cons_append] <;> rfl

/-! ## Claim C6 -/

/-- C6: when a connector's last-traded-price lookup times out or errors,
every non-USD entry in its computed `BalanceEntry` list has price 0 (and
value 0, USD entries price 1), and the synchronization pass still completes:
the snapshot binds this connector (and, by the same lemmas, every other one)
to its own computed list. -/
theorem C6_price_timeout_zero_cycle_completes (s : ServiceState)
    (an : String) (acct : Account) (cn : String) (c : Connector)
    (hnd1 : (s.accounts.map (·.1)).Nodup)
    (hmem1 : (an, acct) ∈ s.accounts)
    (hnd2 : (acct.connectors.map (·.1)).Nodup)
    (hnw : "wallet" ∉ acct.connectors.map (·.1))
    (hmem2 : (cn, c) ∈ acct.connectors)
    (herr : c.last_traded
      (connector_trading_pairs s.banned_tokens s.default_quote c) = .error ()) :
    ((alookup (get_accounts_state (update_account_state s)) an).bind
        (fun inner => alookup inner cn))
      = some (connector_tokens_info s.banned_tokens s.default_quote c) ∧
    entries_prices_zeroed (connector_tokens_info s.banned_tokens s.default_quote c) := by
  have hnd2e : ((account_entries acct).map (·.1)).Nodup := by
    rw [account_entries_keys]
    cases acct.wallet with
    | none => simpa using hnd2
    | some w =>
      simp only [List.cons_append, List.nil_append, List.nodup_cons]
      exact ⟨hnw, hnd2⟩
  have hmem2e : (cn, (some c : Option Connector)) ∈ account_entries acct := by
    unfold account_entries
    exact List.mem_append_right _ (List.mem_map.mpr ⟨(cn, c), hmem2, rfl⟩)
  constructor
  · unfold get_accounts_state update_account_state
    rw [sync_accounts_lookup _ _ _ _ _ _ hnd1 hmem1]
    simp only [Option.some_bind]
    exact sync_connectors_lookup _ _ _ _ _ _ hnd2e hmem2e
  · intro e he
    simp only [connector_tokens_info, List.mem_map] at he
    obtain ⟨kv, hkv, hekv⟩ := he
    subst hekv
    have hlast : safe_get_last_traded_prices c
        (connector_trading_pairs s.banned_tokens s.default_quote c) =
        (connector_trading_pairs s.banned_tokens s.default_quote c).map
          (fun p => (p, (0 : Rat))) := by
      unfold safe_get_last_traded_prices
      rw [herr]
    constructor
    · intro hUSD
      simp [hlast, hUSD, alookup_zero_map]
    · intro hUSD
      simp [hUSD]

/-- Witness for C6: a concrete connector whose price lookup raises; its
SOL entry gets price 0 and value 0, its USDC entry price 1, and the snapshot
still binds the connector to that list. -/
theorem C6_witness :
    ((alookup (get_accounts_state (update_account_state c6_state)) "acct").bind
        (fun inner => alookup inner "ex"))
      = some (connector_tokens_info [] "USDC" err_connector) ∧
    entries_prices_zeroed (connector_tokens_info [] "USDC" err_connector) :=
  C6_price_timeout_zero_cycle_completes c6_state "acct"
    { wallet := some none, connectors := [("ex", err_connector)] } "ex"
    err_connector (by decide) (by exact List.mem_cons_self _ _) (by decide)
    (by decide) (by exact List.mem_cons_self _ _) rfl

/-! ## Claim C3 -/

theorem string_append_cancel_left (a b c : String) (h : a ++ b = a ++ c) :
    b = c := by
  have h2 := congrArg String.data h
  simp only [String.data_append] at h2
  exact String.ext (List.append_cancel_left h2)

/-- C3: when the account's directory already exists (and the in-memory
registry is coherent with the directory tree, as `initialize_accounts`
establishes and the account operations maintain), `add_account` fails with
the already-exists error kind and performs no filesystem or in-memory
mutation whatsoever. -/
theorem C3_add_account_duplicate_fails_unchanged (s : ServiceState)
    (name : String)
    (hco : registry_dirs_coherent s)
    (hdir : s.fs.dir_exists ("credentials/" ++ name)) :
    (add_account s name).1 = .error .already_exists ∧
    (add_account s name).2 = s := by
  have hmem : amem s.accounts name := (hco name).mpr hdir
  unfold add_account
  rw [if_pos hmem]
  exact ⟨rfl, rfl⟩

/-- Witness for C3: a concrete coherent state in which `credentials/acct`
exists; re-adding `"acct"` fails with the already-exists error and returns
the state unchanged (in particular the account's files are untouched). -/
theorem C3_witness :
    (add_account c3_state "acct").1 = .error .already_exists ∧
    (add_account c3_state "acct").2 = c3_state := by
  apply C3_add_account_duplicate_fails_unchanged
  · intro nm
    constructor
    · intro h
      have hnm : nm = "acct" := by
        by_cases h2 : nm = "acct"
        · exact h2
        · exfalso
          have h3 : ¬("acct" = nm) := fun he => h2 he.symm
          simp [amem, alookup, c3_state, h3] at h
      subst hnm
      decide
    · intro h
      have h2 : "credentials/" ++ nm = "credentials/acct" := by
        simpa [c3_state, FS.dir_exists] using h
      have hnm : nm = "acct" := string_append_cancel_left "credentials/" _ _ h2
      subst hnm
      decide
  · decide

/-! ## Claim C4 (code bug) -/

/-- C4: the claim requires a second `create_hummingbot_instance` with the
same worker name to fail cleanly on the existing directory without
overwriting the existing instance's configuration.  The code has no such
guard: on the concrete duplicate call below it rewrites the instance's
`conf` directory (the pre-existing `runtime_secret` entry is gone, replaced
by a fresh copy of the account credentials) and then surfaces an uncaught
Docker name-conflict error on `containers.run` rather than the documented
success-flag result (that return statement is unreachable dead code after
`return`). -/
theorem C4_duplicate_create_overwrites_conf :
    (create_hummingbot_instance c4_cfg c4_fs ["hummingbot-w1"]).1 = .error () ∧
    alookup (create_hummingbot_instance c4_cfg c4_fs ["hummingbot-w1"]).2.1.files
        "bots/instances/hummingbot-w1/conf/conf_client.yml"
      = some [("x", "template"), ("instance_id", "hummingbot-w1")] ∧
    alookup c4_fs.files "bots/instances/hummingbot-w1/conf/conf_client.yml"
      = some [("instance_id", "hummingbot-w1"), ("runtime_secret", "OLD")] := by
  refine ⟨rfl, ?_, by decide⟩
  decide

/-! ## Claim C7 (corrected)

Seconds count wall-clock time; `43290 = 12:01:30`, `43500 = 12:05:00`,
`43590 = 12:06:30`. -/

/-- Counterexample to C7 as stated: with a 5-minute dump interval and the
first successful sync completing at 12:01:30, the first dump of
`dump_account_state_loop` happens immediately at 12:01:30 — not at the
12:05:00 boundary — because the loop dumps before computing the aligned
sleep. -/
theorem C7_counterexample :
    dump_times 43290 5 0 = 43290 ∧ dump_times 43290 5 0 ≠ 43500 := by decide

/-- C7 as amended: the first dump happens immediately when the event fires
(12:01:30); every subsequent dump is aligned to a wall-clock boundary that
is a multiple of the dump interval — the second dump is at 12:05:00, not at
12:06:30 (sync time plus interval) — and in general the computed next dump
time always falls on an aligned minute. -/
theorem C7_amended_first_dump_immediate_then_aligned :
    dump_times 43290 5 0 = 43290 ∧
    dump_times 43290 5 1 = 43500 ∧
    dump_times 43290 5 1 ≠ 43590 ∧
    ∀ now : Nat, next_log_time now 5 / 60 % 60 % 5 = 0 := by
  refine ⟨by decide, by decide, by decide, ?_⟩
  intro now
  show (((now + 5 * 60) / 60 * 60) -
    ((now + 5 * 60) / 60 * 60) / 60 % 60 % 5 * 60) / 60 % 60 % 5 = 0
  generalize (now + 5 * 60) / 60 = q
  have h1 : q * 60 / 60 = q := by omega
  rw [h1]
  omega

/-! ## Claim C8 -/

theorem alookup_map_status (l : List (String × List (String × PValue)))
    (k : String) (v : List (String × PValue))
    (hnd : (l.map (·.1)).Nodup) (hmem : (k, v) ∈ l) :
    alookup (determine_controller_performance l) k =
      some (controller_record_status v) := by
  induction l with
  | nil => cases hmem
  | cons hd tl ih =>
    simp only [List.map_cons, List.nodup_cons] at hnd
    rcases List.mem_cons.mp hmem with heq | hm
    · subst heq
      simp [determine_controller_performance, alookup]
    · have hne : hd.1 ≠ k :=
        fun he => hnd.1 (he ▸ List.mem_map.mpr ⟨(k, v), hm, rfl⟩)
      simp only [determine_controller_performance, List.map_cons, alookup,
        if_neg hne]
      exact ih hnd.2 hm

theorem all_numeric_false_of_bad (perf : List (String × PValue)) (k : String)
    (v : PValue) (hk : (k, v) ∈ perf) (hkne : k ≠ "close_type_counts")
    (hv : v.is_num = false) : all_numeric perf = false := by
  unfold all_numeric
  rw [Bool.eq_false_iff]
  intro hall
  have h2 := List.all_eq_true.mp hall (k, v) hk
  simp [hkne, hv] at h2

/-- C8: a controller record whose metrics include a non-numeric value in any
field other than `close_type_counts` yields a `ControllerStatus` with status
`"error"` and the non-numeric-metrics diagnostic message, while every other
controller record in the same message is validated independently and keeps
its own derived status. -/
theorem C8_non_numeric_metric_error_status
    (cp : List (String × List (String × PValue)))
    (ctrl : String) (perf : List (String × PValue)) (k : String) (v : PValue)
    (ctrl2 : String) (perf2 : List (String × PValue))
    (hnd : (cp.map (·.1)).Nodup)
    (hmem : (ctrl, perf) ∈ cp)
    (hk : (k, v) ∈ perf) (hkne : k ≠ "close_type_counts")
    (hv : v.is_num = false)
    (hmem2 : (ctrl2, perf2) ∈ cp) :
    alookup (determine_controller_performance cp) ctrl =
      some err_controller_status ∧
    alookup (determine_controller_performance cp) ctrl2 =
      some (controller_record_status perf2) := by
  constructor
  · rw [alookup_map_status _ _ _ hnd hmem]
    unfold controller_record_status
    rw [all_numeric_false_of_bad _ _ _ hk hkne hv]
    rfl
  · exact alookup_map_status _ _ _ hnd hmem2

/-- Witness for C8 at the spec's own scenario:
`{controller_1: {total_pnl: 5, total_trades: "bad"}}` yields status `"error"`
with the diagnostic, while `controller_2`'s fully numeric record is validated
independently (its derived status is `"running"`). -/
theorem C8_witness :
    alookup (determine_controller_performance c8_input) "controller_1" =
      some err_controller_status ∧
    alookup (determine_controller_performance c8_input) "controller_2" =
      some (controller_record_status good_perf) ∧
    (controller_record_status good_perf).status = "running" :=
  have h := C8_non_numeric_metric_error_status c8_input "controller_1" bad_perf
    "total_trades" (.str "bad") "controller_2" good_perf (by decide)
    (List.mem_cons_self _ _)
    (List.mem_cons_of_mem _ (List.mem_cons_self _ _)) (by decide) rfl
    (List.mem_cons_of_mem _ (List.mem_cons_self _ _))
  ⟨h.1, h.2, by decide⟩

/-! ## Claim C10 -/

/-- C10 (implicit frame effect): on a cache miss — the account absent from
the in-memory map, or its `"wallet"` field empty — and with the account-info
file present, `get_bot_wallet_address` does not just return the persisted
address: it replaces the account's entire in-memory entry with the file's
contents, whose connector map is empty, so any cached connector instances
under that key are discarded by this read. -/
theorem C10_cache_miss_read_replaces_entry (s : ServiceState) (an : String)
    (info : AccountInfoFile)
    (hmiss : wallet_cache_miss s an = true) :
    (get_bot_wallet_address s an (some info)).1 = .ok info.wallet ∧
    alookup (get_bot_wallet_address s an (some info)).2.accounts an =
      some { wallet := some info.wallet, connectors := [] } := by
  unfold get_bot_wallet_address
  unfold wallet_cache_miss at hmiss
  cases halk : alookup s.accounts an with
  | none =>
    exact ⟨rfl, alookup_ainsert _ _ _⟩
  | some acct =>
    rw [halk] at hmiss
    dsimp only at hmiss ⊢
    cases hwal : acct.wallet with
    | none =>
      rw [hwal] at hmiss
      exact absurd hmiss (by simp)
    | some ow =>
      rw [hwal] at hmiss
      cases ow with
      | none => exact ⟨rfl, alookup_ainsert _ _ _⟩
      | some w =>
        have hempty : w = "" := of_decide_eq_true (by simpa using hmiss)
        subst hempty
        exact ⟨rfl, alookup_ainsert _ _ _⟩

/-- Witness for C10: a concrete account with a cached connector and an empty
wallet field; reading the wallet address through the file fallback returns
the persisted address and leaves the account's entry with no connectors. -/
theorem C10_witness :
    (get_bot_wallet_address c10_state "acct" (some ⟨some "ADDR"⟩)).1
      = .ok (some "ADDR") ∧
    alookup (get_bot_wallet_address c10_state "acct"
        (some ⟨some "ADDR"⟩)).2.accounts "acct" =
      some { wallet := some (some "ADDR"), connectors := [] } :=
  C10_cache_miss_read_replaces_entry c10_state "acct" ⟨some "ADDR"⟩ rfl

/-! ## Claim C9 (corrected) -/

theorem save_account_info_accounts (s : ServiceState) (an : String) :
    (save_account_info s an).accounts = s.accounts := by
  unfold save_account_info
  cases alookup s.accounts an <;> rfl

theorem wallet_val_some (o : Option Account) (a : String)
    (h : wallet_val o = some a) :
    ∃ acct, o = some acct ∧ acct.wallet = some (some a) ∧ ¬(a = "") := by
  cases o with
  | none => exact absurd h (by simp [wallet_val])
  | some acct =>
    refine ⟨acct, rfl, ?_⟩
    dsimp only [wallet_val] at h
    cases hw : acct.wallet with
    | none => rw [hw] at h; exact absurd h (by simp)
    | some ow =>
      rw [hw] at h
      cases ow with
      | none => exact absurd h (by simp)
      | some w =>
        dsimp only at h
        by_cases hempty : w = ""
        · rw [if_pos hempty] at h
          exact absurd h (by simp)
        · rw [if_neg hempty] at h
          have hwa : w = a := Option.some.inj h
          subst hwa
          exact ⟨rfl, hempty⟩

theorem b_eq_a_of_wv {s' s : ServiceState} {an a b : String}
    (h : wallet_val (alookup s'.accounts an) = wallet_val (alookup s.accounts an))
    (hw : wallet_of s an = some a) (hb : wallet_of s' an = some b) : b = a := by
  unfold wallet_of at hw hb
  rw [h, hw] at hb
  exact (Option.some.inj hb).symm

theorem dc_wallet_frame (s : ServiceState) (an2 cn an : String)
    (hcn : cn ≠ "wallet") :
    wallet_val (alookup (delete_credentials s an2 cn).accounts an) =
      wallet_val (alookup s.accounts an) := by
  unfold delete_credentials
  dsimp only
  split
  · cases halk2 : alookup s.accounts an2 with
    | none => rfl
    | some acct =>
      dsimp only
      rw [if_neg (fun h => hcn h.1)]
      split
      · by_cases hane : an2 = an
        · subst hane
          rw [alookup_ainsert, halk2]
          rfl
        · rw [alookup_ainsert_ne _ _ _ _ hane]
      · rfl
  · rfl

theorem ic_wallet_frame (s : ServiceState) (an2 cn : String) (c : Connector)
    (an : String) :
    wallet_val (alookup (init_connector s an2 cn c).accounts an) =
      wallet_val (alookup s.accounts an) := by
  unfold init_connector
  dsimp only
  by_cases hm : amem s.accounts an2
  · rw [if_pos hm]
    cases halk2 : alookup s.accounts an2 with
    | none => rfl
    | some acct =>
      dsimp only
      by_cases hane : an2 = an
      · subst hane
        rw [alookup_ainsert, halk2]
        rfl
      · rw [alookup_ainsert_ne _ _ _ _ hane]
  · rw [if_neg hm]
    rw [alookup_ainsert]
    dsimp only
    by_cases hane : an2 = an
    · subst hane
      have hnone : alookup s.accounts an2 = none := by
        unfold amem at hm
        cases h2 : alookup s.accounts an2
        · rfl
        · rw [h2] at hm; exact absurd rfl hm
      rw [alookup_ainsert, hnone]
      rfl
    · rw [alookup_ainsert_ne _ _ _ _ hane, alookup_ainsert_ne _ _ _ _ hane]

theorem ack_wallet_frame (s : ServiceState) (an2 cn : String) (c : Connector)
    (an : String) :
    wallet_val (alookup (add_connector_keys s an2 cn c).accounts an) =
      wallet_val (alookup s.accounts an) := by
  unfold add_connector_keys
  cases halk2 : alookup s.accounts an2 with
  | none => rfl
  | some acct =>
    dsimp only [update_account_state]
    by_cases hane : an2 = an
    · subst hane
      rw [alookup_ainsert, halk2]
      rfl
    · rw [alookup_ainsert_ne _ _ _ _ hane]

theorem gbw_accounts (s : ServiceState) (an2 : String) (B : SecretBoxModel)
    (key : List Nat) (sk : SigningKeyModel) :
    (generate_bot_wallet s an2 B key sk).2.accounts =
      (match alookup s.accounts an2 with
        | some acct => ainsert s.accounts an2
            { acct with wallet := some (some (wallet_address sk)) }
        | none => s.accounts) := by
  unfold generate_bot_wallet
  dsimp only
  cases halk2 : alookup s.accounts an2 with
  | some acct =>
    dsimp only
    rw [save_account_info_accounts]
  | none => rfl

/-- Counterexample to C9 as stated: a second `generate_bot_wallet` call for
an account that already holds wallet `"A"` records a different address (the
base58 address `"3"` of the fresh verify key `[2]`): the recorded wallet is
not immutable — regeneration is a key-rotation path. -/
theorem C9_counterexample :
    wallet_of c9_state "acct" = some "A" ∧
    wallet_of (step (.op_generate_wallet "acct" toy_box [7] ⟨[1], [2]⟩) c9_state)
      "acct" = some "3" ∧
    ("3" : String) ≠ "A" := by
  refine ⟨rfl, rfl, by decide⟩

/-- C9 as amended: once an account holds a (non-empty) recorded wallet
address, no service operation changes it to a *different* address except
`generate_bot_wallet` for that very account, which overwrites it with the
newly derived address (deletion can remove the record, but nothing else
rebinds it).  The `op_wf` hypothesis excludes the degenerate connector name
`"wallet"`, which in Python would collide with the wallet entry of the same
dict. -/
theorem C9_amended_only_generate_replaces_wallet (o : Op) (s : ServiceState)
    (an a b : String)
    (hnd : (s.accounts.map (·.1)).Nodup)
    (hwf : op_wf o)
    (hw : wallet_of s an = some a)
    (hb : wallet_of (step o s) an = some b) :
    b = a ∨ replaces_wallet_via_generate o an b := by
  obtain ⟨acct0, halk0, hwal0, hane⟩ := wallet_val_some _ _ hw
  cases o with
  | op_add_account n =>
    left
    refine b_eq_a_of_wv ?_ hw hb
    show wallet_val (alookup (add_account s n).2.accounts an) = _
    unfold add_account
    by_cases hm : amem s.accounts n
    · rw [if_pos hm]
    · rw [if_neg hm]
      have hne : n ≠ an := by
        intro he
        apply hm
        rw [he]
        unfold amem
        rw [halk0]
        rfl
      dsimp only
      split
      · dsimp only
        rw [alookup_ainsert_ne _ _ _ _ hne]
      · rfl
  | op_delete_account n =>
    by_cases hne : n = an
    · exfalso
      subst hne
      unfold step delete_account wallet_of at hb
      dsimp only at hb
      rw [alookup_aerase_self _ _ hnd] at hb
      exact absurd hb (by simp [wallet_val])
    · left
      refine b_eq_a_of_wv ?_ hw hb
      show wallet_val (alookup (delete_account s n).accounts an) = _
      unfold delete_account
      dsimp only
      rw [alookup_aerase_ne _ _ _ hne]
  | op_delete_credentials an2 cn =>
    left
    exact b_eq_a_of_wv (dc_wallet_frame s an2 cn an hwf) hw hb
  | op_init_connector an2 cn c =>
    left
    exact b_eq_a_of_wv (ic_wallet_frame s an2 cn c an) hw hb
  | op_add_connector_keys an2 cn c =>
    left
    exact b_eq_a_of_wv (ack_wallet_frame s an2 cn c an) hw hb
  | op_update_account_state =>
    left
    exact b_eq_a_of_wv rfl hw hb
  | op_generate_wallet an2 B key sk =>
    by_cases hane2 : an2 = an
    · subst hane2
      right
      refine ⟨rfl, ?_⟩
      unfold step wallet_of at hb
      rw [gbw_accounts, halk0] at hb
      dsimp only at hb
      rw [alookup_ainsert] at hb
      dsimp only [wallet_val] at hb
      by_cases haddr : wallet_address sk = ""
      · rw [if_pos haddr] at hb
        exact absurd hb (by simp)
      · rw [if_neg haddr] at hb
        exact (Option.some.inj hb).symm
    · left
      refine b_eq_a_of_wv ?_ hw hb
      show wallet_val (alookup (generate_bot_wallet s an2 B key sk).2.accounts an) = _
      rw [gbw_accounts]
      cases halk2 : alookup s.accounts an2 with
      | some acct =>
        dsimp only
        rw [alookup_ainsert_ne _ _ _ _ hane2]
      | none => rfl
  | op_get_wallet_address an2 fi =>
    left
    refine b_eq_a_of_wv ?_ hw hb
    show wallet_val (alookup (get_bot_wallet_address s an2 fi).2.accounts an) = _
    unfold get_bot_wallet_address
    dsimp only
    by_cases hane2 : an2 = an
    · subst hane2
      rw [halk0]
      dsimp only
      rw [hwal0]
      dsimp only
      rw [if_neg hane]
      dsimp only
      rw [halk0]
    · cases halk2 : alookup s.accounts an2 with
      | none =>
        dsimp only
        cases fi with
        | some info =>
          dsimp only
          rw [alookup_ainsert_ne _ _ _ _ hane2]
        | none => rfl
      | some acct =>
        dsimp only
        cases hwal2 : acct.wallet with
        | none => rfl
        | some ow =>
          cases ow with
          | none =>
            dsimp only
            cases fi with
            | some info =>
              dsimp only
              rw [alookup_ainsert_ne _ _ _ _ hane2]
            | none => rfl
          | some w =>
            dsimp only
            by_cases hempty : w = ""
            · rw [if_pos hempty]
              cases fi with
              | some info =>
                dsimp only
                rw [alookup_ainsert_ne _ _ _ _ hane2]
              | none => rfl
            · rw [if_neg hempty]

/-- Witness for the amended C9: a no-op synchronization pass leaves the
concrete account's recorded wallet `"A"` unchanged. -/
theorem C9_witness :
    ("A" : String) = "A" ∨
    replaces_wallet_via_generate .op_update_account_state "acct" "A" :=
  C9_amended_only_generate_replaces_wallet .op_update_account_state c9_state
    "acct" "A" "A" (by decide) trivial rfl rfl

end Robotter
